import Mathlib

set_option maxRecDepth 100000

/-
Verification of the credit-card statement parser backend.

Shallow embedding of the decision logic of the backend services:
  * pdfValidator.js      — content classification (isLikelyCreditCardStatement)
  * imageProcessor.js    — isPDFScanned
  * pdfParser.js         — parsePDF control flow (the OCR recognizer output is a parameter)
  * gmailService.js      — email-triage decision cascade (processEmail)
  * gmailController.js   — reward-points normalization of the model response
  * statementFilter.js   — statement period parsing, duplicate detection and
                           latest-statement selection

JS strings are modelled as Lean strings (one Char per UTF-16 unit for the
ASCII inputs exercised here); JS `Date` values produced by `new Date(y, m, d)`
are modelled as a day count in the proleptic Gregorian calendar, with the
same month/day overflow normalization and the 0..99 → 1900..1999 year rule
the JS constructor applies.  Fallible steps return Option.
-/

/-! ### Generic string helpers (JS String.prototype.includes etc.) -/

/-- `leadsWith pat s` : `pat` is an initial segment of `s`. -/
def leadsWith : List Char → List Char → Bool
  | [], _ => true
  | _ :: _, [] => false
  | a :: as, b :: bs => a == b && leadsWith as bs

/-- `containsSeq pat hay` : `pat` occurs contiguously inside `hay`
(JS `hay.includes(pat)`). -/
def containsSeq (pat : List Char) : List Char → Bool
  | [] => leadsWith pat []
  | hay@(_ :: rest) => leadsWith pat hay || containsSeq pat rest

/-- JS `s.includes(sub)`. -/
def jsIncludes (s sub : String) : Bool := containsSeq sub.toList s.toList

/-- JS `s.toLowerCase()` (character-wise, matching the ASCII inputs used). -/
def jsToLower (s : String) : String := String.mk (s.data.map Char.toLower)

/-- JS `s.slice(0, n)` : first `n` characters of `s`. -/
def jsTake (s : String) (n : Nat) : String := String.mk (s.data.take n)

/-- JS `s.trim()` : strip leading and trailing whitespace. -/
def jsTrim (s : String) : String :=
  String.mk (((s.data.dropWhile Char.isWhitespace).reverse.dropWhile
    Char.isWhitespace).reverse)

/-! ### pdfValidator.js — STATEMENT_INDICATORS and isLikelyCreditCardStatement -/

def STATEMENT_INDICATORS_required : List String :=
  ["credit card", "card account", "card number", "billing cycle",
   "statement period", "payment due", "minimum payment"]

def STATEMENT_INDICATORS_bankNames : List String :=
  ["hdfc bank", "icici bank", "axis bank", "state bank", "sbi card",
   "kotak mahindra", "yes bank", "indusind", "standard chartered", "citibank",
   "hsbc", "american express", "rbl bank", "idfc first", "au small finance",
   "chase", "bank of america", "wells fargo", "capital one", "discover"]

def STATEMENT_INDICATORS_positive : List String :=
  ["reward points", "cashback", "credit limit", "available credit",
   "total amount due", "outstanding balance", "transaction details",
   "account summary"]

def STATEMENT_INDICATORS_negative : List String :=
  ["invoice", "purchase order", "delivery note", "tax invoice", "pro forma",
   "quotation", "estimate"]

/-- `getQuickSample(pdfText, maxChars)` : first `maxChars` characters,
lower-cased (an empty input yields the empty sample). -/
def getQuickSample (pdfText : String) (maxChars : Nat) : String :=
  jsToLower (jsTake pdfText maxChars)

/-- The classification verdict.  Early-return branches of the source leave
`score`/`hasBankName` absent, hence the Options. -/
structure Verdict where
  isStatement : Bool
  confidence : String
  reason : Option String
  score : Option Int
  matchedIndicators : List String
  hasBankName : Option Bool
deriving DecidableEq

/-- The mutated `score` after all four indicator passes of the source:
`required.some(...)` added +3 once (a required match is in hand when this is
reached), `bankNames.some(...)` added +2 once if some bank name matched,
`positive.forEach(...)` added +1 per positive match, and `negative.some(...)`
subtracted 5 once if some negative indicator matched. -/
def classifierScore (bank : Option String) (pos : List String)
    (hasNegative : Bool) : Int :=
  3 + (if bank.isSome then 2 else 0) + pos.length - (if hasNegative then 5 else 0)

/-- The confidence-tier selection at the end of `isLikelyCreditCardStatement`
(everything after the required-keyword gate has passed). -/
def classifierTiers (req : String) (bank : Option String) (pos : List String)
    (hasNegative : Bool) : Verdict :=
  let score : Int := classifierScore bank pos hasNegative
  let matchedIndicators := req :: (bank.toList ++ pos)
  if 5 ≤ score ∧ hasNegative = false then
    { isStatement := true, confidence := "high", reason := none,
      score := some score, matchedIndicators := matchedIndicators, hasBankName := some bank.isSome }
  else if 3 ≤ score ∧ hasNegative = false then
    { isStatement := true, confidence := "medium", reason := none,
      score := some score, matchedIndicators := matchedIndicators, hasBankName := some bank.isSome }
  else if 1 ≤ score then
    { isStatement := true, confidence := "low", reason := none,
      score := some score, matchedIndicators := matchedIndicators, hasBankName := some bank.isSome }
  else
    { isStatement := false, confidence := "low", reason := none,
      score := some score, matchedIndicators := matchedIndicators, hasBankName := some bank.isSome }

/-- `isLikelyCreditCardStatement(pdfText)` from pdfValidator.js.

The source accumulates `score` by mutation: `required.some(...)` adds +3 at
the first required keyword present and stops; `bankNames.some(...)` adds +2
at the first bank name present and stops; `positive.forEach(...)` adds +1
per positive indicator present; `negative.some(...)` subtracts 5 once when
some negative indicator is present.  The final tiers are exactly the three
`if` branches of the source; note that the `score >= 1` branch does not
test `hasNegative`. -/
def isLikelyCreditCardStatement (pdfText : String) : Verdict :=
  let sample := getQuickSample pdfText 2000
  if sample.length < 100 then
    { isStatement := false, confidence := "low",
      reason := some "Insufficient text extracted",
      score := none, matchedIndicators := [], hasBankName := none }
  else
    match STATEMENT_INDICATORS_required.find? (fun i => jsIncludes sample i) with
    | none =>
      { isStatement := false, confidence := "high",
        reason := some "No credit card statement keywords found",
        score := none, matchedIndicators := [], hasBankName := none }
    | some req =>
      classifierTiers req
        (STATEMENT_INDICATORS_bankNames.find? (fun b => jsIncludes sample b))
        (STATEMENT_INDICATORS_positive.filter (fun i => jsIncludes sample i))
        (STATEMENT_INDICATORS_negative.any (fun i => jsIncludes sample i))

/-- A sample (length ≥ 100) containing the required keyword "credit card",
the bank name "hdfc bank", the positive indicators "reward points",
"cashback" and "credit limit", and the negative indicator "invoice".
Net score: 3 + 2 + 3 - 5 = 3 ≥ 1, so the classifier accepts it. -/
def c1NegativeText : String :=
  "credit card statement issued by hdfc bank with reward points cashback and credit limit details invoice zzzzzzzzzz"

/-- A sample (length ≥ 100) containing two required keywords
("credit card", "billing cycle") and two bank names ("hdfc bank",
"icici bank") and nothing else that scores. -/
def c2TwoKeywordText : String :=
  "credit card billing cycle hdfc bank icici bank zzzzzzzzzz zzzzzzzzzz zzzzzzzzzz zzzzzzzzzz zzzzzzzzzz zzzz"

/-- Once the length and required-keyword gates pass, the classifier is the
tier selection applied to the bank match, positive matches and negative flag
of the sample. -/
theorem isLikely_gates (t : String) (req : String)
    (hlen : ¬((getQuickSample t 2000).length < 100))
    (hfind : STATEMENT_INDICATORS_required.find?
        (fun i => jsIncludes (getQuickSample t 2000) i) = some req) :
    isLikelyCreditCardStatement t =
      classifierTiers req
        (STATEMENT_INDICATORS_bankNames.find?
          (fun b => jsIncludes (getQuickSample t 2000) b))
        (STATEMENT_INDICATORS_positive.filter
          (fun i => jsIncludes (getQuickSample t 2000) i))
        (STATEMENT_INDICATORS_negative.any
          (fun i => jsIncludes (getQuickSample t 2000) i)) := by
  simp only [isLikelyCreditCardStatement]
  rw [if_neg hlen, hfind]

/-- With the negative flag set, only the last two tiers are reachable:
confidence is "low" and is-statement holds exactly when the score is ≥ 1. -/
theorem classifierTiers_negative (req : String) (bank : Option String)
    (pos : List String) :
    (classifierTiers req bank pos true).confidence = "low"
    ∧ ((classifierTiers req bank pos true).isStatement = true ↔
        ∃ sc, (classifierTiers req bank pos true).score = some sc ∧ 1 ≤ sc) := by
  simp only [classifierTiers]
  generalize classifierScore bank pos true = sc
  simp only [Bool.true_eq_false, and_false, if_false]
  by_cases h : (1:Int) ≤ sc
  · rw [if_pos h]
    exact ⟨rfl, fun _ => ⟨sc, rfl, h⟩, fun _ => rfl⟩
  · rw [if_neg h]
    refine ⟨rfl, fun hst => absurd hst (by simp), ?_⟩
    rintro ⟨sc2, hsome, h1⟩
    cases Option.some.inj hsome
    exact absurd h1 h

/-- The final verdict always reports the accumulated score. -/
theorem classifierTiers_score (req : String) (bank : Option String)
    (pos : List String) (neg : Bool) :
    (classifierTiers req bank pos neg).score =
      some (classifierScore bank pos neg) := by
  simp only [classifierTiers]
  generalize classifierScore bank pos neg = sc
  split
  · rfl
  · split
    · rfl
    · split
      · rfl
      · rfl

/-- C1 (counterexample): the sample of `c1NegativeText` matches a negative
indicator, yet the classifier returns is-statement = true (the `score >= 1`
tier of the source does not test the negative flag). -/
theorem isLikely_negative_not_override_cex :
    STATEMENT_INDICATORS_negative.any
        (fun i => jsIncludes (getQuickSample c1NegativeText 2000) i) = true
    ∧ (isLikelyCreditCardStatement c1NegativeText).isStatement = true
    ∧ (isLikelyCreditCardStatement c1NegativeText).confidence = "low" := by
  decide

/-- C1 (amended): when the sample passes the length and required-keyword
gates and a negative indicator matches, the high/medium tiers are ruled out
(confidence is "low"), and is-statement is true exactly when the net score
(including the -5 penalty) is still at least 1 — a negative indicator does
not unconditionally force is-statement = false. -/
theorem isLikely_negative_low_tier (t : String)
    (hlen : 100 ≤ (getQuickSample t 2000).length)
    (hreq : (STATEMENT_INDICATORS_required.find?
        (fun i => jsIncludes (getQuickSample t 2000) i)).isSome = true)
    (hneg : STATEMENT_INDICATORS_negative.any
        (fun i => jsIncludes (getQuickSample t 2000) i) = true) :
    (isLikelyCreditCardStatement t).confidence = "low"
    ∧ ((isLikelyCreditCardStatement t).isStatement = true ↔
        ∃ sc, (isLikelyCreditCardStatement t).score = some sc ∧ 1 ≤ sc) := by
  obtain ⟨req, hfind⟩ := Option.isSome_iff_exists.mp hreq
  rw [isLikely_gates t req (Nat.not_lt.mpr hlen) hfind, hneg]
  exact classifierTiers_negative req _ _

/-- C1 witness: the amended statement instantiated at the concrete text. -/
theorem isLikely_negative_low_tier_witness :
    (isLikelyCreditCardStatement c1NegativeText).confidence = "low"
    ∧ ((isLikelyCreditCardStatement c1NegativeText).isStatement = true ↔
        ∃ sc, (isLikelyCreditCardStatement c1NegativeText).score = some sc ∧ 1 ≤ sc) :=
  isLikely_negative_low_tier c1NegativeText (by decide) (by decide) (by decide)

/-- C2 (counterexample): the sample of `c2TwoKeywordText` contains two
required keywords and two bank names, yet the score is 3 + 2 = 5, not
3·2 + 2·2 = 10 — the `some(...)` passes stop at the first match, so extra
required keywords and bank names contribute nothing. -/
theorem isLikely_score_no_accumulation_cex :
    jsIncludes (getQuickSample c2TwoKeywordText 2000) "credit card" = true
    ∧ jsIncludes (getQuickSample c2TwoKeywordText 2000) "billing cycle" = true
    ∧ jsIncludes (getQuickSample c2TwoKeywordText 2000) "hdfc bank" = true
    ∧ jsIncludes (getQuickSample c2TwoKeywordText 2000) "icici bank" = true
    ∧ (isLikelyCreditCardStatement c2TwoKeywordText).score = some 5
    ∧ (isLikelyCreditCardStatement c2TwoKeywordText).score ≠ some 10 := by
  decide

/-- C2 (amended): past the gates, the score is exactly
`classifierScore bank pos neg` = 3 (once, for the first required match)
+ 2 (once, if any bank name matches) + 1 per positive match − 5 (once, if
any negative matches); additional required keywords or bank names beyond
the first do not accumulate. -/
theorem isLikely_score_single_hit (t : String)
    (hlen : 100 ≤ (getQuickSample t 2000).length)
    (hreq : (STATEMENT_INDICATORS_required.find?
        (fun i => jsIncludes (getQuickSample t 2000) i)).isSome = true) :
    (isLikelyCreditCardStatement t).score =
      some (classifierScore
        (STATEMENT_INDICATORS_bankNames.find?
          (fun b => jsIncludes (getQuickSample t 2000) b))
        (STATEMENT_INDICATORS_positive.filter
          (fun i => jsIncludes (getQuickSample t 2000) i))
        (STATEMENT_INDICATORS_negative.any
          (fun i => jsIncludes (getQuickSample t 2000) i))) := by
  obtain ⟨req, hfind⟩ := Option.isSome_iff_exists.mp hreq
  rw [isLikely_gates t req (Nat.not_lt.mpr hlen) hfind, classifierTiers_score]

/-- C2 witness: the amended statement instantiated at the concrete text. -/
theorem isLikely_score_single_hit_witness :
    (isLikelyCreditCardStatement c2TwoKeywordText).score =
      some (classifierScore
        (STATEMENT_INDICATORS_bankNames.find?
          (fun b => jsIncludes (getQuickSample c2TwoKeywordText 2000) b))
        (STATEMENT_INDICATORS_positive.filter
          (fun i => jsIncludes (getQuickSample c2TwoKeywordText 2000) i))
        (STATEMENT_INDICATORS_negative.any
          (fun i => jsIncludes (getQuickSample c2TwoKeywordText 2000) i))) :=
  isLikely_score_single_hit c2TwoKeywordText (by decide) (by decide)

/-! ### imageProcessor.js / pdfParser.js — scanned detection and parsePDF -/

/-- `isPDFScanned(pdfText, metadata)` from imageProcessor.js: scanned when
the trimmed text is under 100 characters, or the per-page text density
(`trimmedLength / (numPages || 1)`) is under 200, or the ratio of characters
outside the printable ASCII range 0x20–0x7E exceeds 0.3 of the raw length.
The two real-valued comparisons are stated as the equivalent exact integer
inequalities. -/
def isPDFScanned (pdfText : String) (numPages : Nat) : Bool :=
  if (jsTrim pdfText).length < 100 then true
  else
    let pages := if numPages = 0 then 1 else numPages
    if (jsTrim pdfText).length < 200 * pages then true
    else
      let gibberish :=
        (pdfText.data.filter (fun c => c < ' ' ∨ '~' < c)).length
      if 3 * pdfText.length < 10 * gibberish then true
      else false

/-- The result of `parsePDF` (the fields the claims speak about). -/
structure PdfParseResult where
  text : String
  numPages : Nat
  isScanned : Bool
  extractionMethod : String
deriving DecidableEq

/-- `parsePDF(filePath)` from pdfParser.js, with the I/O boundary made
explicit: `rawText` is the concatenated page text of the direct extraction
and `ocrText` is whatever the OCR pipeline of `parsePDFWithOCR` would
return for this document.  When the document is not scanned and the trimmed
text exceeds 100 characters the direct result is returned; otherwise the
OCR branch returns `isScanned = true` with method "ocr". -/
def parsePDF (rawText : String) (numPages : Nat) (ocrText : String) :
    PdfParseResult :=
  if isPDFScanned rawText numPages = false ∧ 100 < (jsTrim rawText).length then
    { text := jsTrim rawText, numPages := numPages,
      isScanned := false, extractionMethod := "direct" }
  else
    { text := ocrText, numPages := numPages,
      isScanned := true, extractionMethod := "ocr" }

/-- C6: a result with `isScanned = false` is a direct extraction whose text
exceeds 100 characters; conversely a result whose text is under 100
characters reports `isScanned = true`. -/
theorem parsePDF_scanned_invariants (raw : String) (n : Nat) (ocr : String) :
    ((parsePDF raw n ocr).isScanned = false →
      (parsePDF raw n ocr).extractionMethod = "direct"
      ∧ 100 < (parsePDF raw n ocr).text.length)
    ∧ ((parsePDF raw n ocr).text.length < 100 →
      (parsePDF raw n ocr).isScanned = true) := by
  unfold parsePDF
  split
  · rename_i hcond
    refine ⟨fun _ => ⟨rfl, hcond.2⟩, fun hshort => absurd hshort ?_⟩
    simp only [not_lt]
    exact Nat.le_of_lt (Nat.lt_of_le_of_lt (by omega) hcond.2)
  · exact ⟨fun hfalse => absurd hfalse (by simp), fun _ => rfl⟩

/-- C6 witness: a short direct text falls through to the OCR branch and is
reported scanned. -/
theorem parsePDF_scanned_invariants_witness :
    (parsePDF "tiny" 1 "ocr text").isScanned = true :=
  (parsePDF_scanned_invariants "tiny" 1 "ocr text").2 (by decide)

/-! ### gmailService.js — email triage decision cascade -/

def BANK_DOMAINS : List String :=
  ["hdfcbank.com", "hdfcbank.net", "icicibank.com", "sbi.co.in",
   "onlinesbi.com", "sbicard.com", "axisbank.com", "kotak.com", "yesbank.in",
   "indusind.com", "sc.com", "standardchartered.com", "citi.com",
   "citibank.com", "hsbc.co.in", "hsbc.com", "rbl.co.in", "rblbank.com",
   "idfcfirstbank.com", "aubank.in", "americanexpress.com", "aexp.com",
   "bobfinancial.com", "bankofbaroda.com", "pnbcards.com", "chase.com",
   "bankofamerica.com", "wellsfargo.com", "capitalone.com", "discover.com",
   "barclays.com", "visa.com", "mastercard.com"]

def BANK_KEYWORDS : List String :=
  ["credit card", "statement", "e-statement", "estatement", "card statement",
   "billing statement", "account summary", "reward points", "payment due",
   "monthly statement", "statement of account", "billing cycle",
   "credit limit", "total amount due", "minimum payment"]

/-- `isFromBankDomain(fromEmail)`: the lower-cased From header contains some
known bank domain as a substring. -/
def isFromBankDomain (fromEmail : String) : Bool :=
  if fromEmail = "" then false
  else BANK_DOMAINS.any (fun domain => jsIncludes (jsToLower fromEmail) domain)

/-- `containsBankKeywords(text)` from gmailService.js. -/
def containsBankKeywords (text : String) : Bool :=
  if text = "" then false
  else BANK_KEYWORDS.any (fun keyword => jsIncludes (jsToLower text) keyword)

/-- The content analysis computed in Case 3 (`analyzePDFContent`), an
external input to the decision (it involves PDF parsing and OCR). -/
structure AnalysisResult where
  isBankRelated : Bool
  confidence : String
  reason : String
deriving DecidableEq

/-- The triage outcome of `processEmail` (the fields the claims speak
about; a skipped message without a decided case leaves it empty). -/
structure TriageOutcome where
  skipped : Bool
  decisionCase : String
  reason : String
deriving DecidableEq

/-- The decision cascade of `processEmail` from gmailService.js:
no PDF attachment → skipped "No PDF attachments"; Case 1: known bank
domain; Case 2: bank keywords in subject or body; Case 3: decided by the
content analysis of the first downloaded PDF. -/
def processEmailDecision (fromHeader subject body : String) (pdfCount : Nat)
    (analysis : AnalysisResult) : TriageOutcome :=
  if pdfCount = 0 then
    { skipped := true, decisionCase := "", reason := "No PDF attachments" }
  else if isFromBankDomain fromHeader then
    { skipped := false, decisionCase := "Case 1", reason := "Known bank domain" }
  else if containsBankKeywords subject || containsBankKeywords body then
    { skipped := false, decisionCase := "Case 2",
      reason := "Bank keywords in "
        ++ (if containsBankKeywords subject then "subject" else "") ++ " "
        ++ (if containsBankKeywords subject && containsBankKeywords body
            then "and" else "") ++ " "
        ++ (if containsBankKeywords body then "body" else "") }
  else if analysis.isBankRelated then
    { skipped := false, decisionCase := "Case 3",
      reason := "PDF content is bank-related (" ++ analysis.confidence
        ++ " confidence)" }
  else
    { skipped := true, decisionCase := "Rejected",
      reason := "PDF content not bank-related: " ++ analysis.reason }

/-- C9: a message without PDF attachments is skipped with reason
"No PDF attachments" whatever the sender, subject, body or analysis; and a
message with at least one PDF whose sender matches a bank domain is
accepted as Case 1 ("Known bank domain"), with an outcome independent of
the content analysis — so neither text extraction nor the classifier can
influence (nor are needed for) the decision. -/
theorem triage_cascade_order (f s b : String) (n : Nat)
    (a a2 : AnalysisResult) :
    ((processEmailDecision f s b 0 a).skipped = true
      ∧ (processEmailDecision f s b 0 a).reason = "No PDF attachments")
    ∧ (n ≠ 0 → isFromBankDomain f = true →
        (processEmailDecision f s b n a).skipped = false
        ∧ (processEmailDecision f s b n a).decisionCase = "Case 1"
        ∧ (processEmailDecision f s b n a).reason = "Known bank domain"
        ∧ processEmailDecision f s b n a = processEmailDecision f s b n a2) := by
  constructor
  · exact ⟨rfl, rfl⟩
  · intro hn hbank
    unfold processEmailDecision
    rw [if_neg hn, if_pos (by simp [hbank]), if_neg hn, if_pos (by simp [hbank])]
    exact ⟨rfl, rfl, rfl, rfl⟩

/-- C9 witness: the cascade at a concrete bank-domain sender, with two
distinct analysis results, hypotheses discharged by evaluation. -/
theorem triage_cascade_order_witness :
    (processEmailDecision "statements@hdfcbank.com" "s" "b" 1
        ⟨true, "high", "r"⟩).skipped = false
    ∧ (processEmailDecision "statements@hdfcbank.com" "s" "b" 1
        ⟨true, "high", "r"⟩).decisionCase = "Case 1"
    ∧ (processEmailDecision "statements@hdfcbank.com" "s" "b" 1
        ⟨true, "high", "r"⟩).reason = "Known bank domain"
    ∧ processEmailDecision "statements@hdfcbank.com" "s" "b" 1
        ⟨true, "high", "r"⟩
      = processEmailDecision "statements@hdfcbank.com" "s" "b" 1
        ⟨false, "low", "other"⟩ :=
  (triage_cascade_order "statements@hdfcbank.com" "s" "b" 1
    ⟨true, "high", "r"⟩ ⟨false, "low", "other"⟩).2 (by decide) (by decide)

/-! ### gmailController.js — normalization of the model's rewardPoints -/

/-- A JS value as it can appear in a field of the parsed model response:
absent/undefined, null, a number, or an array of `{category, points}`
entries.  (Other shapes do not occur in the fields the claims concern.) -/
inductive JVal where
  | undef
  | jnull
  | num (n : Int)
  | arr (entries : List (String × Int))
deriving DecidableEq

/-- The `rewardPoints` object of the model response (fields may be
undefined). -/
structure RewardPointsResp where
  opening : JVal
  earned : JVal
  redeemed : JVal
  adjustedLapsed : JVal
  closing : JVal
  breakdown : JVal
deriving DecidableEq

/-- JS `v ?? null`. -/
def nullishToNull : JVal → JVal
  | .undef => .jnull
  | .jnull => .jnull
  | v => v

/-- JS `Array.isArray(v)`. -/
def jsIsArray : JVal → Bool
  | .arr _ => true
  | _ => false

/-- The `statement.rewardPoints = {...}` assignment of gmailController.js:
each numeric field is `rp.field ?? null` and breakdown is
`Array.isArray(rp.breakdown) ? rp.breakdown : null`. -/
def normalizeRewardPoints (rp : RewardPointsResp) : RewardPointsResp :=
  { opening := nullishToNull rp.opening
    earned := nullishToNull rp.earned
    redeemed := nullishToNull rp.redeemed
    adjustedLapsed := nullishToNull rp.adjustedLapsed
    closing := nullishToNull rp.closing
    breakdown := if jsIsArray rp.breakdown then rp.breakdown else .jnull }

/-- The scenario response `{opening: undefined, earned: 500}`. -/
def scenarioResp : RewardPointsResp :=
  { opening := .undef, earned := .num 500, redeemed := .undef,
    adjustedLapsed := .undef, closing := .undef, breakdown := .undef }

/-- C7 (counterexample): a model response whose breakdown is the *empty*
array is stored with the empty array, not null — refuting "breakdown is
null unless the returned array is non-empty". -/
theorem normalize_breakdown_empty_array_cex :
    (normalizeRewardPoints { scenarioResp with breakdown := .arr [] }).breakdown
      = .arr []
    ∧ (normalizeRewardPoints { scenarioResp with breakdown := .arr [] }).breakdown
      ≠ .jnull := by
  decide

/-- `v ?? null` yields a number only when `v` was that number. -/
theorem nullishToNull_num (v : JVal) (n : Int) :
    nullishToNull v = .num n → v = .num n := by
  cases v <;> simp [nullishToNull]

/-- `v ?? null` yields null on undefined/null inputs. -/
theorem nullishToNull_null (v : JVal) :
    (v = .undef ∨ v = .jnull) → nullishToNull v = .jnull := by
  rintro (h | h) <;> simp [h, nullishToNull]

/-- C7 (amended): every missing/undefined or null numeric field is stored
as null and a numeric value is passed through unchanged (so 0 can only be
stored when the model said 0); breakdown is null exactly when the model's
breakdown is not an array (an empty array is kept as-is); and the scenario
`{opening: undefined, earned: 500}` normalizes to all-null except
`earned = 500` with breakdown null. -/
theorem normalize_reward_fields (rp : RewardPointsResp) :
    ((rp.opening = .undef ∨ rp.opening = .jnull) →
        (normalizeRewardPoints rp).opening = .jnull)
    ∧ (∀ n, (normalizeRewardPoints rp).opening = .num n → rp.opening = .num n)
    ∧ ((rp.earned = .undef ∨ rp.earned = .jnull) →
        (normalizeRewardPoints rp).earned = .jnull)
    ∧ (∀ n, (normalizeRewardPoints rp).earned = .num n → rp.earned = .num n)
    ∧ ((rp.redeemed = .undef ∨ rp.redeemed = .jnull) →
        (normalizeRewardPoints rp).redeemed = .jnull)
    ∧ (∀ n, (normalizeRewardPoints rp).redeemed = .num n → rp.redeemed = .num n)
    ∧ ((rp.adjustedLapsed = .undef ∨ rp.adjustedLapsed = .jnull) →
        (normalizeRewardPoints rp).adjustedLapsed = .jnull)
    ∧ (∀ n, (normalizeRewardPoints rp).adjustedLapsed = .num n →
        rp.adjustedLapsed = .num n)
    ∧ ((rp.closing = .undef ∨ rp.closing = .jnull) →
        (normalizeRewardPoints rp).closing = .jnull)
    ∧ (∀ n, (normalizeRewardPoints rp).closing = .num n → rp.closing = .num n)
    ∧ ((normalizeRewardPoints rp).breakdown = .jnull ↔
        jsIsArray rp.breakdown = false)
    ∧ normalizeRewardPoints scenarioResp =
        { opening := .jnull, earned := .num 500, redeemed := .jnull,
          adjustedLapsed := .jnull, closing := .jnull, breakdown := .jnull } := by
  refine ⟨fun h => nullishToNull_null _ h, fun n h => nullishToNull_num _ n h,
    fun h => nullishToNull_null _ h, fun n h => nullishToNull_num _ n h,
    fun h => nullishToNull_null _ h, fun n h => nullishToNull_num _ n h,
    fun h => nullishToNull_null _ h, fun n h => nullishToNull_num _ n h,
    fun h => nullishToNull_null _ h, fun n h => nullishToNull_num _ n h,
    ?_, by decide⟩
  cases hv : rp.breakdown <;>
    simp [normalizeRewardPoints, jsIsArray, hv]

/-- C7 witness: the amended statement instantiated at the scenario input,
the undefined-field hypotheses discharged by evaluation. -/
theorem normalize_reward_fields_witness :
    (normalizeRewardPoints scenarioResp).opening = .jnull
    ∧ (normalizeRewardPoints scenarioResp).breakdown = .jnull :=
  ⟨(normalize_reward_fields scenarioResp).1 (Or.inl (by decide)),
   ((normalize_reward_fields scenarioResp).2.2.2.2.2.2.2.2.2.2.1).mpr (by decide)⟩

/-- A model response assigning the same number to adjustedLapsed and
closing. -/
def conflatedResp : RewardPointsResp :=
  { opening := .num 10, earned := .num 20, redeemed := .num 5,
    adjustedLapsed := .num 100, closing := .num 100, breakdown := .undef }

/-- C8 (counterexample): nothing in the pipeline checks the two fields —
a model response with `adjustedLapsed = closing = 100` is stored with both
fields equal, independent of what any source statement text said (the
normalization never inspects the statement text at all). -/
theorem normalize_adjustedLapsed_closing_equal_cex :
    (normalizeRewardPoints conflatedResp).adjustedLapsed
      = (normalizeRewardPoints conflatedResp).closing
    ∧ (normalizeRewardPoints conflatedResp).adjustedLapsed = .num 100 := by
  decide

/-- C8 (amended): the separation of adjustedLapsed and closing is requested
only in the model prompt; the stored values are the model's values
verbatim (after `?? null`), so whenever the model returns numbers for both
fields they are stored unchanged — equal whenever the model returned equal
numbers, whatever the statement text states. -/
theorem normalize_adjustedLapsed_closing_verbatim (rp : RewardPointsResp)
    (n m : Int) (ha : rp.adjustedLapsed = .num n) (hc : rp.closing = .num m) :
    (normalizeRewardPoints rp).adjustedLapsed = .num n
    ∧ (normalizeRewardPoints rp).closing = .num m := by
  simp [normalizeRewardPoints, ha, hc, nullishToNull]

/-- C8 witness: the verbatim pass-through at the conflated response. -/
theorem normalize_adjustedLapsed_closing_verbatim_witness :
    (normalizeRewardPoints conflatedResp).adjustedLapsed = .num 100
    ∧ (normalizeRewardPoints conflatedResp).closing = .num 100 :=
  normalize_adjustedLapsed_closing_verbatim conflatedResp 100 100
    (by decide) (by decide)

/-! ### statementFilter.js — statement-period date parsing

The source matches an ordered list of regexes; each pattern is embedded as
a backtracking parser over the character list with leftmost-then-greedy
priority (quantifier alternatives are enumerated longest-first, matches at
earlier start positions are preferred), which is the semantics of a JS
regex `String.match` search. -/

/-- A parser returns the priority-ordered list of (captures, rest)
alternatives. -/
def Prs (α : Type) : Type := List Char → List (α × List Char)

instance : Monad Prs where
  pure a := fun s => [(a, s)]
  bind p f := fun s => (p s).flatMap (fun r => f r.1 r.2)

/-- Match one literal character. -/
def pLit (c : Char) : Prs Unit := fun s =>
  match s with
  | c2 :: r => if c2 == c then [((), r)] else []
  | [] => []

/-- Match one literal character, case-insensitively (for the `/i` flags). -/
def pLitCI (c : Char) : Prs Unit := fun s =>
  match s with
  | c2 :: r => if c2.toLower == c then [((), r)] else []
  | [] => []

/-- Greedy `cls{lo,hi}`: between `lo` and `hi` characters of a class,
longest alternative first. -/
def pTakeRange (p : Char → Bool) (lo hi : Nat) : Prs (List Char) := fun s =>
  let run := (s.takeWhile p).length
  (List.range (min run hi + 1)).reverse.filterMap
    (fun k => if lo ≤ k then some (s.take k, s.drop k) else none)

/-- Greedy `cls*`. -/
def pStar (p : Char → Bool) : Prs (List Char) := fun s =>
  pTakeRange p 0 s.length s

/-- Greedy `cls+`. -/
def pPlus (p : Char → Bool) : Prs (List Char) := fun s =>
  pTakeRange p 1 s.length s

/-- Greedy `,?`. -/
def pOptComma : Prs Unit := fun s =>
  match s with
  | c :: r => if c == ',' then [((), r), ((), s)] else [((), s)]
  | [] => [((), s)]

/-- The `$` anchor. -/
def pEnd : Prs Unit := fun s => if s.isEmpty then [((), s)] else []

def isDigitCh (c : Char) : Bool := c.isDigit

def isAlphaCh (c : Char) : Bool := c.isAlpha

def isSpaceCh (c : Char) : Bool := c.isWhitespace

/-- JS `parseInt` on a captured digit group. -/
def digitsToNat (ds : List Char) : Nat :=
  ds.foldl (fun acc c => acc * 10 + (c.toNat - '0'.toNat)) 0

/-- Unanchored search: try each start position left to right, keep the
first (highest-priority) full match.  Patterns passed here all end in the
`$` anchor. -/
def searchAux {α : Type} (p : Prs α) : List Char → Option α
  | [] => ((p []).head?).map (·.1)
  | s :: rest =>
    match (p (s :: rest)).head? with
    | some r => some r.1
    | none => searchAux p rest

/-- `^`-anchored match. -/
def runAnchored {α : Type} (p : Prs α) (s : List Char) : Option α :=
  ((p s).head?).map (·.1)

/-- `parseMonth(monthStr)` from statementFilter.js. -/
def parseMonth (monthStr : String) : Option Nat :=
  (([("jan", 1), ("january", 1), ("feb", 2), ("february", 2),
     ("mar", 3), ("march", 3), ("apr", 4), ("april", 4), ("may", 5),
     ("jun", 6), ("june", 6), ("jul", 7), ("july", 7),
     ("aug", 8), ("august", 8), ("sep", 9), ("september", 9),
     ("oct", 10), ("october", 10), ("nov", 11), ("november", 11),
     ("dec", 12), ("december", 12)] : List (String × Nat)).find?
    (fun p => p.1 == jsToLower monthStr)).map (·.2)

/-- Day count of the Gregorian date `y-m-d` (m in 1..12; d may exceed the
month length and then rolls over), day 0 = 1970-01-01. -/
def daysFromCivil (y m d : Int) : Int :=
  let y2 := if m ≤ 2 then y - 1 else y
  let era := Int.fdiv y2 400
  let yoe := y2 - era * 400
  let mp := Int.emod (m + 9) 12
  let doy := Int.fdiv (153 * mp + 2) 5 + d - 1
  let doe := yoe * 365 + Int.fdiv yoe 4 - Int.fdiv yoe 100 + doy
  era * 146097 + doe - 719468

/-- JS `new Date(year, month - 1, day)` as a day count: month and day
overflow are normalized by component arithmetic (month 0 is December of
the previous year, day beyond the month length rolls into the next month),
and a year argument in 0..99 is read as 1900+year.  No finite argument
combination yields NaN, so the source's `isNaN` guard never rejects. -/
def jsDate (year month day : Int) : Int :=
  let mi := month - 1
  let yr := if 0 ≤ year ∧ year ≤ 99 then 1900 + year else year
  let ym := yr + Int.fdiv mi 12
  let mn := Int.emod mi 12
  daysFromCivil ym (mn + 1) 1 + (day - 1)

/-- Pattern 1, HDFC: `-\s*(\d{1,2})\s+([A-Za-z]+),?\s+(\d{4})\s*$` (i). -/
def reDashDayMonthNameYear : Prs (Nat × String × Nat) := do
  pLit '-'
  _ ← pStar isSpaceCh
  let d ← pTakeRange isDigitCh 1 2
  _ ← pPlus isSpaceCh
  let m ← pPlus isAlphaCh
  pOptComma
  _ ← pPlus isSpaceCh
  let y ← pTakeRange isDigitCh 4 4
  _ ← pStar isSpaceCh
  pEnd
  pure (digitsToNat d, String.mk m, digitsToNat y)

/-- Pattern 2, ICICI: `to\s+([A-Za-z]+)\s+(\d{1,2}),?\s+(\d{4})\s*$` (i). -/
def reToMonthNameDayYear : Prs (String × Nat × Nat) := do
  pLitCI 't'
  pLitCI 'o'
  _ ← pPlus isSpaceCh
  let m ← pPlus isAlphaCh
  _ ← pPlus isSpaceCh
  let d ← pTakeRange isDigitCh 1 2
  pOptComma
  _ ← pPlus isSpaceCh
  let y ← pTakeRange isDigitCh 4 4
  _ ← pStar isSpaceCh
  pEnd
  pure (String.mk m, digitsToNat d, digitsToNat y)

/-- Patterns 3 and 4: `-\s*(\d{1,2})sep(\d{1,2})sep(\d{4})\s*$` with
`sep` = `/` or `-`. -/
def reDashDMYSep (sep : Char) : Prs (Nat × Nat × Nat) := do
  pLit '-'
  _ ← pStar isSpaceCh
  let d ← pTakeRange isDigitCh 1 2
  pLit sep
  let m ← pTakeRange isDigitCh 1 2
  pLit sep
  let y ← pTakeRange isDigitCh 4 4
  _ ← pStar isSpaceCh
  pEnd
  pure (digitsToNat d, digitsToNat m, digitsToNat y)

/-- Pattern 5: `to\s+(\d{4})-(\d{2})-(\d{2})\s*$`. -/
def reToISO : Prs (Nat × Nat × Nat) := do
  pLit 't'
  pLit 'o'
  _ ← pPlus isSpaceCh
  let y ← pTakeRange isDigitCh 4 4
  pLit '-'
  let m ← pTakeRange isDigitCh 2 2
  pLit '-'
  let d ← pTakeRange isDigitCh 2 2
  _ ← pStar isSpaceCh
  pEnd
  pure (digitsToNat y, digitsToNat m, digitsToNat d)

/-- Pattern 6: `^(\d{1,2})\s+([A-Za-z]+),?\s+(\d{4})$` (i). -/
def reDayMonthNameYearFull : Prs (Nat × String × Nat) := do
  let d ← pTakeRange isDigitCh 1 2
  _ ← pPlus isSpaceCh
  let m ← pPlus isAlphaCh
  pOptComma
  _ ← pPlus isSpaceCh
  let y ← pTakeRange isDigitCh 4 4
  pEnd
  pure (digitsToNat d, String.mk m, digitsToNat y)

/-- Pattern 7: `^([A-Za-z]+)\s+(\d{1,2}),?\s+(\d{4})$` (i). -/
def reMonthNameDayYearFull : Prs (String × Nat × Nat) := do
  let m ← pPlus isAlphaCh
  _ ← pPlus isSpaceCh
  let d ← pTakeRange isDigitCh 1 2
  pOptComma
  _ ← pPlus isSpaceCh
  let y ← pTakeRange isDigitCh 4 4
  pEnd
  pure (String.mk m, digitsToNat d, digitsToNat y)

/-- Patterns 8 and 9: `^(\d{1,2})sep(\d{1,2})sep(\d{4})$`. -/
def reDMYFull (sep : Char) : Prs (Nat × Nat × Nat) := do
  let d ← pTakeRange isDigitCh 1 2
  pLit sep
  let m ← pTakeRange isDigitCh 1 2
  pLit sep
  let y ← pTakeRange isDigitCh 4 4
  pEnd
  pure (digitsToNat d, digitsToNat m, digitsToNat y)

/-- Patterns 10 and 11: `^(\d{4})sep(\d{2})sep(\d{2})$`. -/
def reYMDFull (sep : Char) : Prs (Nat × Nat × Nat) := do
  let y ← pTakeRange isDigitCh 4 4
  pLit sep
  let m ← pTakeRange isDigitCh 2 2
  pLit sep
  let d ← pTakeRange isDigitCh 2 2
  pEnd
  pure (digitsToNat y, digitsToNat m, digitsToNat d)

/-- The ordered pattern cascade of `parseStatementDate`: each entry is
"regex matched and its `parse` returned a valid date" (a month-name that
`parseMonth` rejects makes the pattern yield nothing, and the loop goes on
to the next pattern, exactly as in the source). -/
def parseStatementDatePatterns : List (List Char → Option Int) :=
  [ fun cs => (searchAux reDashDayMonthNameYear cs).bind
      (fun r => (parseMonth r.2.1).map (fun mo => jsDate r.2.2 mo r.1)),
    fun cs => (searchAux reToMonthNameDayYear cs).bind
      (fun r => (parseMonth r.1).map (fun mo => jsDate r.2.2 mo r.2.1)),
    fun cs => (searchAux (reDashDMYSep '/') cs).map
      (fun r => jsDate r.2.2 r.2.1 r.1),
    fun cs => (searchAux (reDashDMYSep '-') cs).map
      (fun r => jsDate r.2.2 r.2.1 r.1),
    fun cs => (searchAux reToISO cs).map
      (fun r => jsDate r.1 r.2.1 r.2.2),
    fun cs => (runAnchored reDayMonthNameYearFull cs).bind
      (fun r => (parseMonth r.2.1).map (fun mo => jsDate r.2.2 mo r.1)),
    fun cs => (runAnchored reMonthNameDayYearFull cs).bind
      (fun r => (parseMonth r.1).map (fun mo => jsDate r.2.2 mo r.2.1)),
    fun cs => (runAnchored (reDMYFull '/') cs).map
      (fun r => jsDate r.2.2 r.2.1 r.1),
    fun cs => (runAnchored (reDMYFull '-') cs).map
      (fun r => jsDate r.2.2 r.2.1 r.1),
    fun cs => (runAnchored (reYMDFull '-') cs).map
      (fun r => jsDate r.1 r.2.1 r.2.2),
    fun cs => (runAnchored (reYMDFull '/') cs).map
      (fun r => jsDate r.1 r.2.1 r.2.2) ]

/-- `parseStatementDate(statementPeriod)` from statementFilter.js: null or
empty input yields null, otherwise the trimmed period is run through the
pattern cascade and the first pattern that matches and yields a valid date
wins. -/
def parseStatementDate (statementPeriod : Option String) : Option Int :=
  match statementPeriod with
  | none => none
  | some sp =>
    if sp = "" then none
    else parseStatementDatePatterns.findSome? (fun pat => pat (jsTrim sp).toList)

/-- C10: `parseStatementDate` accepts the nonexistent calendar date
"31/02/2024": the `^(\d{1,2})\/(\d{1,2})\/(\d{4})$` pattern matches, the
date is built with component arithmetic that normalizes overflow, and the
result is the rolled-over day 2024-03-02 rather than null. -/
theorem parseStatementDate_rollover :
    parseStatementDate (some "31/02/2024") = some (jsDate 2024 2 31)
    ∧ jsDate 2024 2 31 = daysFromCivil 2024 3 2
    ∧ parseStatementDate (some "31/02/2024") ≠ none := by
  decide

/-! ### statementFilter.js — grouping, duplicates and latest selection -/

/-- A persisted statement record as consumed by `filterLatestStatements`.
`id` models the Mongo `_id` (distinct per stored record); fields that may
be absent in JS are Options. -/
structure Stmt where
  id : Nat
  bankName : Option String
  cardVariant : Option String
  statementPeriod : Option String
  cardNumber : Option String
  fileName : String
  uploadDate : Option Int
deriving DecidableEq

/-- The alias table of `normalizeBankName`, in source order. -/
def bankNameMappings : List (String × String) :=
  [("hdfc", "hdfc bank"), ("icici", "icici bank"), ("axis", "axis bank"),
   ("sbi", "sbi card"), ("standard chartered", "standard chartered"),
   ("hsbc", "hsbc"), ("kotak", "kotak mahindra bank"), ("yes", "yes"),
   ("indusind", "indusind"), ("citi", "citibank"),
   ("american express", "amex"), ("dbs", "dbs"), ("au", "au small bank"),
   ("capital one", "capital one"), ("wells fargo", "wells fargo"),
   ("chase", "chase"), ("bilt", "bilt")]

/-- `normalizeBankName(bankName)`: trim, lower-case, then the first alias
whose key occurs in the name wins. -/
def normalizeBankName (bankName : Option String) : String :=
  match bankName with
  | none => "unknown"
  | some s =>
    if s = "" then "unknown"
    else
      let normalized := jsToLower (jsTrim s)
      match bankNameMappings.find? (fun p => jsIncludes normalized p.1) with
      | some p => p.2
      | none => normalized

/-- `areDuplicateStatements(stmt1, stmt2)`: same raw statementPeriod
string AND (same card number when both are present, or same file name). -/
def areDuplicateStatements (stmt1 stmt2 : Stmt) : Bool :=
  let samePeriod := stmt1.statementPeriod == stmt2.statementPeriod
  let sameCard :=
    match stmt1.cardNumber, stmt2.cardNumber with
    | some c1, some c2 => c1 == c2
    | _, _ => false
  let sameFilename := stmt1.fileName == stmt2.fileName
  samePeriod && (sameCard || sameFilename)

/-- The grouping key of `groupStatementsByBankAndVariant`:
(normalized bank name, `cardVariant || 'Unknown Variant'`). -/
def groupKey (s : Stmt) : String × String :=
  (normalizeBankName s.bankName, s.cardVariant.getD "Unknown Variant")

/-- The members of one group, in input order. -/
def groupOf (l : List Stmt) (k : String × String) : List Stmt :=
  l.filter (fun s => groupKey s == k)

/-- First-occurrence deduplication (object keys iterate in insertion
order; the source nests bank → variant, which permutes only the order in
which groups are processed, not their contents). -/
def dedupFirstAux {α : Type} [DecidableEq α] :
    List α → List α → List α
  | [], _ => []
  | k :: rest, seen =>
    if k ∈ seen then dedupFirstAux rest seen
    else k :: dedupFirstAux rest (k :: seen)

/-- The distinct (bank, variant) keys of the input, in first-occurrence
order. -/
def groupKeys (l : List Stmt) : List (String × String) :=
  dedupFirstAux (l.map groupKey) []

/-- The duplicate scan of `filterLatestStatements`: each statement is a
duplicate when it duplicates some earlier-kept unique statement, else it
is kept unique (`uniqueStatements` / `dupeStatements` in source order). -/
def splitDupesAux : List Stmt → List Stmt → List Stmt →
    List Stmt × List Stmt
  | [], uniq, dupes => (uniq, dupes)
  | stmt :: rest, uniq, dupes =>
    if uniq.any (fun existing => areDuplicateStatements stmt existing) then
      splitDupesAux rest uniq (dupes ++ [stmt])
    else
      splitDupesAux rest (uniq ++ [stmt]) dupes

def splitDupes (l : List Stmt) : List Stmt × List Stmt :=
  splitDupesAux l [] []

/-- The sort comparator of `getLatestStatement`: statement date
descending, upload date descending as tiebreaker (a stable sort with this
`le` is the JS `Array.prototype.sort` on the comparator of the source). -/
def latestLE (a b : Stmt) : Bool :=
  let pa := (parseStatementDate a.statementPeriod).getD 0
  let pb := (parseStatementDate b.statementPeriod).getD 0
  decide (pb < pa ∨ (pb = pa ∧ b.uploadDate.getD 0 ≤ a.uploadDate.getD 0))

/-- `getLatestStatement(statements)`: null on empty input, the single
statement of a singleton group; otherwise the records with parseable
periods are sorted and the head wins — and when **no** record parses, the
source returns `statements[0]`.  JS `Array.prototype.sort` is a stable
sort by the comparator; `latestLE` is a total preorder, and a stable sort
under a total preorder has a unique result, so the stable
`List.insertionSort` used here produces exactly the JS-sorted order. -/
def getLatestStatement : List Stmt → Option Stmt
  | [] => none
  | [s] => some s
  | s :: t2 :: rest =>
    let withDates := (s :: t2 :: rest).filter
      (fun u => (parseStatementDate u.statementPeriod).isSome)
    match (withDates.insertionSort (fun a b => latestLE a b = true)).head? with
    | some w => some w
    | none => some s

/-- One group's pass of `filterLatestStatements`: singleton groups keep
their record; larger groups split off duplicates, pick the latest among
the unique records (the source falls back to the whole group when
`uniqueStatements` is empty, which cannot happen), and the remaining
records — different id from the winner and not duplicates — are filtered
as older.  Returns (latest, filtered, duplicates) contributions. -/
def processGroup : List Stmt → List Stmt × List Stmt × List Stmt
  | [] => ([], [], [])
  | [s] => ([s], [], [])
  | s :: t2 :: rest =>
    let g := s :: t2 :: rest
    let ud := splitDupes g
    match getLatestStatement (if ud.1.isEmpty then g else ud.1) with
    | none => ([], [], ud.2)
    | some w =>
      ([w],
       g.filter (fun x => !(x.id == w.id) && !(decide (x ∈ ud.2))),
       ud.2)

structure FilterSummary where
  totalStatements : Nat
  uniqueBanks : Nat
  uniqueCards : Nat
  latestStatements : Nat
  filteredStatements : Nat
  duplicates : Nat
deriving DecidableEq

structure FilterResult where
  latest : List Stmt
  filtered : List Stmt
  duplicates : List Stmt
  summary : FilterSummary
deriving DecidableEq

/-- `filterLatestStatements(statements)`: group by (bank, variant) and
concatenate each group's contributions (an empty input yields the empty
result, as in the source's early return). -/
def filterLatestStatements (l : List Stmt) : FilterResult :=
  let ks := groupKeys l
  let latest := ks.flatMap (fun k => (processGroup (groupOf l k)).1)
  let filtered := ks.flatMap (fun k => (processGroup (groupOf l k)).2.1)
  let dups := ks.flatMap (fun k => (processGroup (groupOf l k)).2.2)
  { latest := latest, filtered := filtered, duplicates := dups,
    summary :=
      { totalStatements := l.length
        uniqueBanks :=
          (dedupFirstAux (l.map (fun s => normalizeBankName s.bankName)) []).length
        uniqueCards := ks.length
        latestStatements := latest.length
        filteredStatements := filtered.length
        duplicates := dups.length } }

/-- Two records with the identical unparseable period "April 2024" and the
identical file name. -/
def dupA : Stmt :=
  ⟨1, some "HDFC", some "Infinia", some "April 2024", none, "stmt.pdf", some 100⟩

def dupB : Stmt :=
  ⟨2, some "HDFC", some "Infinia", some "April 2024", none, "stmt.pdf", some 200⟩

/-- Two records of one group whose periods are both unparseable, with
distinct file names (not duplicates). -/
def unpA : Stmt :=
  ⟨3, some "HDFC", some "Infinia", some "April 2024", none, "a.pdf", some 100⟩

def unpB : Stmt :=
  ⟨4, some "HDFC", some "Infinia", some "May 2024", none, "b.pdf", some 200⟩

/-- C5: two records are duplicates exactly when they share the identical
raw statementPeriod and (the same card number when both carry one, or the
identical file name); and the concrete pair with period "April 2024" and
file "stmt.pdf" lands in `duplicates` — not in `filtered` — even though
that period is unparseable. -/
theorem duplicate_criterion_and_scenario :
    (∀ s1 s2 : Stmt, areDuplicateStatements s1 s2 = true ↔
      (s1.statementPeriod = s2.statementPeriod
        ∧ ((∃ c, s1.cardNumber = some c ∧ s2.cardNumber = some c)
            ∨ s1.fileName = s2.fileName)))
    ∧ (filterLatestStatements [dupA, dupB]).duplicates = [dupB]
    ∧ (filterLatestStatements [dupA, dupB]).filtered = []
    ∧ (filterLatestStatements [dupA, dupB]).latest = [dupA]
    ∧ parseStatementDate dupA.statementPeriod = none := by
  refine ⟨?_, by decide, by decide, by decide, by decide⟩
  intro s1 s2
  cases hc1 : s1.cardNumber with
  | none => cases hc2 : s2.cardNumber <;> simp [areDuplicateStatements, hc1, hc2]
  | some c1 =>
    cases hc2 : s2.cardNumber with
    | none => simp [areDuplicateStatements, hc1, hc2]
    | some c2 =>
      simp only [areDuplicateStatements, hc1, hc2, Bool.and_eq_true,
        Bool.or_eq_true, beq_iff_eq, Option.some.injEq]
      constructor
      · rintro ⟨hper, hc | hf⟩
        · exact ⟨hper, Or.inl ⟨c2, hc, rfl⟩⟩
        · exact ⟨hper, Or.inr hf⟩
      · rintro ⟨hper, ⟨c, h1, h2⟩ | hf⟩
        · exact ⟨hper, Or.inl (h1.trans h2.symm)⟩
        · exact ⟨hper, Or.inr hf⟩

/-- C4 (counterexample): in a group in which no statementPeriod parses,
the unparseable first record is selected as latest (the source's
`withDates.length === 0` branch returns `statements[0]`), refuting
"unparseable records are never selected as latest, including when every
record in the group is unparseable". -/
theorem getLatest_unparseable_selected_cex :
    parseStatementDate unpA.statementPeriod = none
    ∧ parseStatementDate unpB.statementPeriod = none
    ∧ getLatestStatement [unpA, unpB] = some unpA
    ∧ (filterLatestStatements [unpA, unpB]).latest = [unpA] := by
  decide

/-- A head returned by `head?` is a member. -/
theorem headSomeMem {α : Type} (l : List α) (w : α)
    (h : l.head? = some w) : w ∈ l := by
  cases l with
  | nil => cases h
  | cons a as =>
    have : a = w := by simpa using h
    exact this ▸ List.mem_cons_self a as

/-- The winner of `getLatestStatement` is one of the inputs. -/
theorem getLatestStatement_mem (l : List Stmt) (w : Stmt)
    (h : getLatestStatement l = some w) : w ∈ l := by
  match l with
  | [] => cases h
  | [s] =>
    have : s = w := by simpa [getLatestStatement] using h
    exact this ▸ List.mem_cons_self s []
  | s :: t2 :: rest =>
    revert h
    simp only [getLatestStatement]
    cases hms : ((s :: t2 :: rest).filter
        (fun u => (parseStatementDate u.statementPeriod).isSome)).insertionSort
        (fun a b => latestLE a b = true) with
    | nil =>
      intro h
      have : s = w := by simpa using h
      exact this ▸ List.mem_cons_self s (t2 :: rest)
    | cons w2 ws =>
      intro h
      have hw2 : w2 = w := by simpa using h
      subst hw2
      have hmem : w2 ∈ w2 :: ws := List.mem_cons_self w2 ws
      rw [← hms] at hmem
      exact List.mem_of_mem_filter ((List.mem_insertionSort _).mp hmem)

/-- `getLatestStatement` returns a winner on every nonempty input. -/
theorem getLatestStatement_isSome (s : Stmt) (rest : List Stmt) :
    ∃ w, getLatestStatement (s :: rest) = some w := by
  match rest with
  | [] => exact ⟨s, rfl⟩
  | t2 :: rest2 =>
    simp only [getLatestStatement]
    cases hms : ((s :: t2 :: rest2).filter
        (fun u => (parseStatementDate u.statementPeriod).isSome)).insertionSort
        (fun a b => latestLE a b = true) with
    | nil => exact ⟨s, rfl⟩
    | cons w ws => exact ⟨w, rfl⟩

/-- C4 (amended): whenever at least one record of the group has a
parseable statementPeriod, the selected latest always has a parseable
period — unparseable records are excluded from the sort and winner
selection.  (When no record parses, the source instead falls back to the
group's first record, see the counterexample.) -/
theorem getLatest_parseable_winner (l : List Stmt)
    (h : ∃ t ∈ l, (parseStatementDate t.statementPeriod).isSome = true) :
    ∃ w, getLatestStatement l = some w
      ∧ (parseStatementDate w.statementPeriod).isSome = true := by
  match l with
  | [] => exact absurd h (by simp)
  | [s] =>
    obtain ⟨t, ht, hp⟩ := h
    have hts : t = s := by simpa using ht
    exact ⟨s, rfl, hts ▸ hp⟩
  | s :: t2 :: rest =>
    obtain ⟨t, ht, hp⟩ := h
    have htw : t ∈ (s :: t2 :: rest).filter
        (fun u => (parseStatementDate u.statementPeriod).isSome) :=
      List.mem_filter.mpr ⟨ht, hp⟩
    cases hms : ((s :: t2 :: rest).filter
        (fun u => (parseStatementDate u.statementPeriod).isSome)).insertionSort
        (fun a b => latestLE a b = true) with
    | nil =>
      exfalso
      have hperm := List.perm_insertionSort
        (fun a b => latestLE a b = true)
        ((s :: t2 :: rest).filter
          (fun u => (parseStatementDate u.statementPeriod).isSome))
      rw [hms] at hperm
      rw [hperm.symm.eq_nil] at htw
      cases htw
    | cons w ws =>
      refine ⟨w, ?_, ?_⟩
      · simp only [getLatestStatement]
        rw [hms]
        rfl
      · have hmem : w ∈ w :: ws := List.mem_cons_self w ws
        rw [← hms] at hmem
        exact (List.mem_filter.mp
          ((List.mem_insertionSort _).mp hmem)).2

/-- A parseable-period record for the C4 witness. -/
def parA : Stmt :=
  ⟨5, some "HDFC", some "Infinia", some "1/1/2024", none, "c.pdf", some 100⟩

/-- C4 witness: the amended statement at a group with one parseable
record, the existence hypothesis discharged by evaluation. -/
theorem getLatest_parseable_winner_witness :
    ∃ w, getLatestStatement [parA, unpA] = some w
      ∧ (parseStatementDate w.statementPeriod).isSome = true :=
  getLatest_parseable_winner [parA, unpA]
    ⟨parA, by decide, by decide⟩

/-- The duplicate scan only redistributes: unique ++ duplicates is a
permutation of the accumulators plus the remaining input. -/
theorem splitDupesAux_perm (l uniq dupes : List Stmt) :
    ((splitDupesAux l uniq dupes).1 ++ (splitDupesAux l uniq dupes).2).Perm
      (uniq ++ dupes ++ l) := by
  induction l generalizing uniq dupes with
  | nil => simp [splitDupesAux]
  | cons s rest ih =>
    simp only [splitDupesAux]
    split
    · refine (ih uniq (dupes ++ [s])).trans ?_
      simp only [List.append_assoc, List.singleton_append]
      exact List.Perm.refl _
    · refine (ih (uniq ++ [s]) dupes).trans ?_
      simp only [List.append_assoc, List.singleton_append]
      exact List.Perm.append_left uniq List.perm_middle.symm

/-- The unique accumulator only grows. -/
theorem splitDupesAux_fst_prefix (l uniq dupes : List Stmt) :
    ∃ u2, (splitDupesAux l uniq dupes).1 = uniq ++ u2 := by
  induction l generalizing uniq dupes with
  | nil => exact ⟨[], by simp [splitDupesAux]⟩
  | cons s rest ih =>
    simp only [splitDupesAux]
    split
    · exact ih uniq (dupes ++ [s])
    · obtain ⟨u2, hu⟩ := ih (uniq ++ [s]) dupes
      exact ⟨s :: u2, by simpa using hu⟩

/-- unique ++ duplicates is a permutation of the group. -/
theorem splitDupes_perm (l : List Stmt) :
    ((splitDupes l).1 ++ (splitDupes l).2).Perm l := by
  simpa [splitDupes] using splitDupesAux_perm l [] []

/-- On a nonempty group the unique list is nonempty (the first record is
always kept unique). -/
theorem splitDupes_fst_ne_nil (s : Stmt) (rest : List Stmt) :
    (splitDupes (s :: rest)).1 ≠ [] := by
  have hstep : splitDupes (s :: rest) = splitDupesAux rest [s] [] := by
    simp [splitDupes, splitDupesAux]
  obtain ⟨u2, hu⟩ := splitDupesAux_fst_prefix rest [s] []
  rw [hstep, hu]
  simp

/-- Computation of `processGroup` on a group of at least two records. -/
theorem processGroup_cons2 (s t2 : Stmt) (rest : List Stmt) (w : Stmt)
    (hw : getLatestStatement (splitDupes (s :: t2 :: rest)).1 = some w) :
    processGroup (s :: t2 :: rest) =
      ([w],
       (s :: t2 :: rest).filter
         (fun x => !(x.id == w.id)
            && !(decide (x ∈ (splitDupes (s :: t2 :: rest)).2))),
       (splitDupes (s :: t2 :: rest)).2) := by
  have hne := splitDupes_fst_ne_nil s (t2 :: rest)
  have hue : (splitDupes (s :: t2 :: rest)).1.isEmpty = false := by
    cases hcase : (splitDupes (s :: t2 :: rest)).1 with
    | nil => exact absurd hcase hne
    | cons a as => rfl
  simp only [processGroup, hue, Bool.false_eq_true, if_false, hw]

/-- Every nonempty group contributes exactly one latest record, a member
of the group. -/
theorem processGroup_latest_singleton (g : List Stmt) (hne : g ≠ []) :
    ∃ w, w ∈ g ∧ (processGroup g).1 = [w] := by
  match g with
  | [] => exact absurd rfl hne
  | [s] => exact ⟨s, List.mem_cons_self s [], rfl⟩
  | s :: t2 :: rest =>
    have hu_ne := splitDupes_fst_ne_nil s (t2 :: rest)
    obtain ⟨uh, ut, hu⟩ := List.exists_cons_of_ne_nil hu_ne
    have hsome : ∃ w,
        getLatestStatement (splitDupes (s :: t2 :: rest)).1 = some w := by
      rw [hu]; exact getLatestStatement_isSome uh ut
    obtain ⟨w, hw⟩ := hsome
    have hwmem_u : w ∈ (splitDupes (s :: t2 :: rest)).1 :=
      getLatestStatement_mem _ w hw
    have hwg : w ∈ s :: t2 :: rest :=
      (splitDupes_perm (s :: t2 :: rest)).subset
        (List.mem_append.mpr (Or.inl hwmem_u))
    exact ⟨w, hwg, by rw [processGroup_cons2 s t2 rest w hw]⟩

/-- One group's contributions partition the group: the latest is a
singleton, latest ++ filtered ++ duplicates is a permutation of the group,
and the three lists are mutually disjoint (their concatenation has no
duplicates). -/
theorem processGroup_partition (g : List Stmt) (hne : g ≠ [])
    (hnd : (g.map Stmt.id).Nodup) :
    (processGroup g).1.length = 1
    ∧ g.Perm ((processGroup g).1 ++ (processGroup g).2.1 ++ (processGroup g).2.2)
    ∧ ((processGroup g).1 ++ (processGroup g).2.1 ++ (processGroup g).2.2).Nodup := by
  match g with
  | [] => exact absurd rfl hne
  | [s] => exact ⟨rfl, by simp [processGroup], by simp [processGroup]⟩
  | s :: t2 :: rest =>
    have hgnd : (s :: t2 :: rest).Nodup := List.Nodup.of_map Stmt.id hnd
    have hu_ne := splitDupes_fst_ne_nil s (t2 :: rest)
    obtain ⟨uh, ut, hu⟩ := List.exists_cons_of_ne_nil hu_ne
    have hsome : ∃ w,
        getLatestStatement (splitDupes (s :: t2 :: rest)).1 = some w := by
      rw [hu]; exact getLatestStatement_isSome uh ut
    obtain ⟨w, hw⟩ := hsome
    have hperm := splitDupes_perm (s :: t2 :: rest)
    have hund : ((splitDupes (s :: t2 :: rest)).1
        ++ (splitDupes (s :: t2 :: rest)).2).Nodup :=
      (hperm.nodup_iff).mpr hgnd
    have hdisj : (splitDupes (s :: t2 :: rest)).1.Disjoint
        (splitDupes (s :: t2 :: rest)).2 :=
      (List.nodup_append.mp hund).2.2
    have hdnd : (splitDupes (s :: t2 :: rest)).2.Nodup :=
      (List.nodup_append.mp hund).2.1
    have hwmem_u : w ∈ (splitDupes (s :: t2 :: rest)).1 :=
      getLatestStatement_mem _ w hw
    have hwg : w ∈ s :: t2 :: rest :=
      hperm.subset (List.mem_append.mpr (Or.inl hwmem_u))
    have hwd : w ∉ (splitDupes (s :: t2 :: rest)).2 :=
      fun hd => hdisj hwmem_u hd
    have hdsub : ∀ x ∈ (splitDupes (s :: t2 :: rest)).2, x ∈ s :: t2 :: rest :=
      fun x hx => hperm.subset (List.mem_append.mpr (Or.inr hx))
    rw [processGroup_cons2 s t2 rest w hw]
    have hfmem : ∀ x, x ∈ (s :: t2 :: rest).filter
        (fun x => !(x.id == w.id)
          && !(decide (x ∈ (splitDupes (s :: t2 :: rest)).2)))
        ↔ (x ∈ s :: t2 :: rest ∧ x.id ≠ w.id
            ∧ x ∉ (splitDupes (s :: t2 :: rest)).2) := by
      intro x
      rw [List.mem_filter]
      constructor
      · rintro ⟨hx, hcond⟩
        refine ⟨hx, ?_, ?_⟩
        · intro heq
          simp [heq] at hcond
        · intro hxd
          simp [hxd] at hcond
      · rintro ⟨hx, hid, hxd⟩
        refine ⟨hx, ?_⟩
        simp [hid, hxd]
    have hfnd : ((s :: t2 :: rest).filter
        (fun x => !(x.id == w.id)
          && !(decide (x ∈ (splitDupes (s :: t2 :: rest)).2)))).Nodup :=
      hgnd.filter _
    have hwfnot : w ∉ (s :: t2 :: rest).filter
        (fun x => !(x.id == w.id)
          && !(decide (x ∈ (splitDupes (s :: t2 :: rest)).2))) := by
      rw [hfmem w]
      rintro ⟨_, hid, _⟩
      exact hid rfl
    have hfd_disj : ((s :: t2 :: rest).filter
        (fun x => !(x.id == w.id)
          && !(decide (x ∈ (splitDupes (s :: t2 :: rest)).2)))).Disjoint
        (splitDupes (s :: t2 :: rest)).2 := by
      intro x hxf hxd
      exact ((hfmem x).mp hxf).2.2 hxd
    have hrhs_nd : ([w] ++ (s :: t2 :: rest).filter
        (fun x => !(x.id == w.id)
          && !(decide (x ∈ (splitDupes (s :: t2 :: rest)).2)))
        ++ (splitDupes (s :: t2 :: rest)).2).Nodup := by
      simp only [List.singleton_append, List.cons_append, List.nil_append]
      refine List.nodup_cons.mpr
        ⟨?_, List.nodup_append.mpr ⟨hfnd, hdnd, hfd_disj⟩⟩
      intro hmem
      rcases List.mem_append.mp hmem with hf1 | hd1
      · exact hwfnot hf1
      · exact hwd hd1
    have hinj := List.inj_on_of_nodup_map hnd
    have hmemiff : ∀ a, a ∈ (s :: t2 :: rest) ↔
        a ∈ [w] ++ (s :: t2 :: rest).filter
          (fun x => !(x.id == w.id)
            && !(decide (x ∈ (splitDupes (s :: t2 :: rest)).2)))
          ++ (splitDupes (s :: t2 :: rest)).2 := by
      intro a
      constructor
      · intro ha
        by_cases haw : a.id = w.id
        · have haeq : a = w := hinj ha hwg haw
          simp [haeq]
        · by_cases had : a ∈ (splitDupes (s :: t2 :: rest)).2
          · simp [had]
          · have : a ∈ (s :: t2 :: rest).filter
                (fun x => !(x.id == w.id)
                  && !(decide (x ∈ (splitDupes (s :: t2 :: rest)).2))) :=
              (hfmem a).mpr ⟨ha, haw, had⟩
            simp [this]
      · intro ha
        rcases List.mem_append.mp ha with h1 | hd1
        · rcases List.mem_append.mp h1 with hw1 | hf1
          · have : a = w := by simpa using hw1
            exact this ▸ hwg
          · exact ((hfmem a).mp hf1).1
        · exact hdsub a hd1
    exact ⟨rfl, (List.perm_ext_iff_of_nodup hgnd hrhs_nd).mpr hmemiff, hrhs_nd⟩

/-- Membership in the first-occurrence dedup. -/
theorem dedupFirstAux_mem {α : Type} [DecidableEq α] (l : List α) (k : α) :
    ∀ seen : List α, k ∈ dedupFirstAux l seen ↔ k ∈ l ∧ k ∉ seen := by
  induction l with
  | nil => intro seen; simp [dedupFirstAux]
  | cons a rest ih =>
    intro seen
    simp only [dedupFirstAux]
    split
    · rename_i hmem
      rw [ih seen]
      constructor
      · rintro ⟨hk, hns⟩
        exact ⟨List.mem_cons_of_mem a hk, hns⟩
      · rintro ⟨hk, hns⟩
        rcases List.mem_cons.mp hk with rfl | hk2
        · exact absurd hmem hns
        · exact ⟨hk2, hns⟩
    · rename_i hmem
      constructor
      · intro hin
        rcases List.mem_cons.mp hin with rfl | hin2
        · exact ⟨List.mem_cons_self k rest, hmem⟩
        · obtain ⟨hk, hns⟩ := (ih (a :: seen)).mp hin2
          refine ⟨List.mem_cons_of_mem a hk, ?_⟩
          intro hsn
          exact hns (List.mem_cons_of_mem a hsn)
      · rintro ⟨hka, hns⟩
        by_cases hkeq : k = a
        · exact hkeq ▸ List.mem_cons_self a _
        · rcases List.mem_cons.mp hka with rfl | hk
          · exact List.mem_cons_self k _
          · refine List.mem_cons_of_mem a ((ih (a :: seen)).mpr ⟨hk, ?_⟩)
            intro hsn
            rcases List.mem_cons.mp hsn with h1 | h2
            · exact hkeq h1
            · exact hns h2

/-- The first-occurrence dedup has no duplicates. -/
theorem dedupFirstAux_nodup {α : Type} [DecidableEq α] (l : List α) :
    ∀ seen : List α, (dedupFirstAux l seen).Nodup := by
  induction l with
  | nil => intro seen; simp [dedupFirstAux]
  | cons a rest ih =>
    intro seen
    simp only [dedupFirstAux]
    split
    · exact ih seen
    · refine List.nodup_cons.mpr ⟨?_, ih (a :: seen)⟩
      rw [dedupFirstAux_mem]
      rintro ⟨_, hns⟩
      exact hns (List.mem_cons_self a seen)

theorem groupKeys_nodup (l : List Stmt) : (groupKeys l).Nodup :=
  dedupFirstAux_nodup (l.map groupKey) []

theorem groupKeys_mem (l : List Stmt) (k : String × String) :
    k ∈ groupKeys l ↔ k ∈ l.map groupKey := by
  rw [groupKeys, dedupFirstAux_mem]
  simp

/-- A listed key has a nonempty group. -/
theorem groupOf_ne_nil (l : List Stmt) (k : String × String)
    (hk : k ∈ groupKeys l) : groupOf l k ≠ [] := by
  rw [groupKeys_mem] at hk
  obtain ⟨s, hs, hks⟩ := List.mem_map.mp hk
  intro hnil
  have hmem : s ∈ groupOf l k := List.mem_filter.mpr ⟨hs, by simp [hks]⟩
  rw [hnil] at hmem
  cases hmem

/-- Members of a group carry its key. -/
theorem groupOf_key (l : List Stmt) (k : String × String) (x : Stmt)
    (hx : x ∈ groupOf l k) : groupKey x = k := by
  have := (List.mem_filter.mp hx).2
  simpa using this

/-- Latest records of groups with other keys do not count towards `k`. -/
theorem latest_countP_zero (ks : List (String × String)) (l : List Stmt)
    (k : String × String) (hnk : k ∉ ks)
    (hne : ∀ k2 ∈ ks, groupOf l k2 ≠ []) :
    ((ks.flatMap (fun k2 => (processGroup (groupOf l k2)).1)).countP
      (fun x => groupKey x == k)) = 0 := by
  induction ks with
  | nil => rfl
  | cons k0 rest ih =>
    obtain ⟨w0, hw0g, hw0⟩ := processGroup_latest_singleton _
      (hne k0 (List.mem_cons_self _ _))
    have hkey : groupKey w0 = k0 := groupOf_key l k0 w0 hw0g
    have hk0 : ¬(k0 = k) := fun h => hnk (h ▸ List.mem_cons_self k0 rest)
    simp only [List.flatMap_cons, List.countP_append, hw0]
    rw [ih (fun h => hnk (List.mem_cons_of_mem k0 h))
      (fun k2 h2 => hne k2 (List.mem_cons_of_mem k0 h2))]
    simp [List.countP_cons, hkey, hk0]

/-- Exactly one record of group `k` ends up in the concatenated latest
list. -/
theorem latest_countP_one (ks : List (String × String)) (l : List Stmt)
    (k : String × String) (hnd : ks.Nodup) (hk : k ∈ ks)
    (hne : ∀ k2 ∈ ks, groupOf l k2 ≠ []) :
    ((ks.flatMap (fun k2 => (processGroup (groupOf l k2)).1)).countP
      (fun x => groupKey x == k)) = 1 := by
  induction ks with
  | nil => cases hk
  | cons k0 rest ih =>
    obtain ⟨w0, hw0g, hw0⟩ := processGroup_latest_singleton _
      (hne k0 (List.mem_cons_self _ _))
    have hkey : groupKey w0 = k0 := groupOf_key l k0 w0 hw0g
    simp only [List.flatMap_cons, List.countP_append, hw0]
    rcases List.mem_cons.mp hk with rfl | hk2
    · rw [latest_countP_zero rest l k (List.nodup_cons.mp hnd).1
        (fun k2 h2 => hne k2 (List.mem_cons_of_mem k h2))]
      simp [List.countP_cons, hkey]
    · have hk0 : ¬(k0 = k) := by
        rintro rfl
        exact (List.nodup_cons.mp hnd).1 hk2
      rw [ih (List.nodup_cons.mp hnd).2 hk2
        (fun k2 h2 => hne k2 (List.mem_cons_of_mem k0 h2))]
      simp [List.countP_cons, hkey, hk0]

/-- C3: for every input with distinct record ids and every (normalized
bank, card variant) key of the input, the group's latest contribution is a
single record, latest ++ filtered ++ duplicates is a permutation of the
group (so their union is exactly the group's records), the three parts
are mutually disjoint, and the overall `latest` of
`filterLatestStatements` contains exactly one record of the group. -/
theorem filterLatest_group_partition (l : List Stmt)
    (hnd : (l.map Stmt.id).Nodup) (k : String × String)
    (hk : k ∈ groupKeys l) :
    (processGroup (groupOf l k)).1.length = 1
    ∧ (groupOf l k).Perm ((processGroup (groupOf l k)).1
        ++ (processGroup (groupOf l k)).2.1 ++ (processGroup (groupOf l k)).2.2)
    ∧ ((processGroup (groupOf l k)).1 ++ (processGroup (groupOf l k)).2.1
        ++ (processGroup (groupOf l k)).2.2).Nodup
    ∧ (filterLatestStatements l).latest.countP
        (fun x => groupKey x == k) = 1 := by
  have hgne := groupOf_ne_nil l k hk
  have hsub : (groupOf l k).Sublist l := List.filter_sublist l
  have hmapnd : ((groupOf l k).map Stmt.id).Nodup :=
    List.Nodup.sublist (hsub.map Stmt.id) hnd
  obtain ⟨h1, h2, h3⟩ := processGroup_partition (groupOf l k) hgne hmapnd
  refine ⟨h1, h2, h3, ?_⟩
  have hlat : (filterLatestStatements l).latest =
      (groupKeys l).flatMap (fun k2 => (processGroup (groupOf l k2)).1) := rfl
  rw [hlat]
  exact latest_countP_one (groupKeys l) l k (groupKeys_nodup l) hk
    (fun k2 h2 => groupOf_ne_nil l k2 h2)

/-- Records for the C3 witness: one group of two distinct records. -/
def w3a : Stmt := ⟨1, some "hdfc", some "Infinia", some "x", none, "a.pdf", some 5⟩

def w3b : Stmt := ⟨2, some "hdfc", some "Infinia", some "y", none, "b.pdf", some 3⟩

/-- C3 witness: the partition at a concrete two-record group, hypotheses
discharged by evaluation. -/
theorem filterLatest_group_partition_witness :
    (processGroup (groupOf [w3a, w3b] ("hdfc bank", "Infinia"))).1.length = 1
    ∧ (groupOf [w3a, w3b] ("hdfc bank", "Infinia")).Perm
        ((processGroup (groupOf [w3a, w3b] ("hdfc bank", "Infinia"))).1
          ++ (processGroup (groupOf [w3a, w3b] ("hdfc bank", "Infinia"))).2.1
          ++ (processGroup (groupOf [w3a, w3b] ("hdfc bank", "Infinia"))).2.2)
    ∧ ((processGroup (groupOf [w3a, w3b] ("hdfc bank", "Infinia"))).1
        ++ (processGroup (groupOf [w3a, w3b] ("hdfc bank", "Infinia"))).2.1
        ++ (processGroup (groupOf [w3a, w3b] ("hdfc bank", "Infinia"))).2.2).Nodup
    ∧ (filterLatestStatements [w3a, w3b]).latest.countP
        (fun x => groupKey x == ("hdfc bank", "Infinia")) = 1 :=
  filterLatest_group_partition [w3a, w3b] (by decide)
    ("hdfc bank", "Infinia") (by decide)
